import Mathlib

/- Verification of the streaming talking-head pipeline: audio feature
   windowing and mel bookkeeping from utils.py and audio_pipeline/, the
   streaming loop of services/generator.py (frame counts, retry budget,
   error propagation, head-motion cursor, name binding of the base class),
   and the paste geometry of frame_generation_pipeline/image_processor.py.
   Python/numpy integer and slice semantics are embedded explicitly; the
   float expressions that feed int() are modeled as exact rationals. -/

namespace DigitalClone

/-- Python list slicing l[a:b] with step 1: a negative bound counts from the
end of the list, and both bounds are clamped to the list, never raising. -/
def pySlice {α : Type} (l : List α) (a b : Int) : List α :=
  let n : Int := l.length
  let a1 := (if a < 0 then max 0 (n + a) else min a n).toNat
  let b1 := (if b < 0 then max 0 (n + b) else min b n).toNat
  (l.drop a1).take (b1 - a1)

/-- Embedding of get_audio_features (utils.py lines 136-162): the window
features[index-8 : index+8] with left and right zero padding, where each
padding block is zeros_like(auds[:pad]), i.e. it is clipped to the length
of the list it is copied from, exactly as in the numpy code. -/
def get_audio_features {α : Type} (z : α) (features : List α) (index : Int) : List α :=
  let n : Int := features.length
  let left0 := index - 8
  let right0 := index + 8
  let padLeft : Int := if left0 < 0 then -left0 else 0
  let left : Int := if left0 < 0 then 0 else left0
  let padRight : Int := if right0 > n then right0 - n else 0
  let right : Int := if right0 > n then n else right0
  let auds := pySlice features left right
  let auds2 := if 0 < padLeft then (pySlice auds 0 padLeft).map (fun _ => z) ++ auds else auds
  if 0 < padRight then auds2 ++ (pySlice auds2 0 padRight).map (fun _ => z) else auds2

/-- The window the spec describes for get_context(k): frame embeddings k-8
through k+7 read directly from the embedding sequence, with padding wherever
the position falls outside the sequence. Written from the words of the spec,
to be compared with the code embedding above. -/
def spec_context {α : Type} (z : α) (embs : List α) (k : Int) : List α :=
  (List.range 16).map (fun r =>
    let p := k - 8 + r
    if 0 ≤ p ∧ p < embs.length then embs.getD p.toNat z else z)

/-- Embedding of AudDataset.crop_audio_window (utils.py lines 423-446) and
MelSpectrogramProcessor.crop_audio_window: start = int(80 * frameIdx / fps),
end = start + 16, shifted back when end overruns the spectrogram. The list
holds the mel rows (time axis). -/
def crop_audio_window {α : Type} (spec : List α) (frameIdx : Nat) (fps : Nat) : List α :=
  let n : Int := spec.length
  let startIdx : Int := (80 * frameIdx / fps : Nat)
  let endIdx : Int := startIdx + 16
  if endIdx > n then pySlice spec (n - 16) n else pySlice spec startIdx endIdx

/-- Embedding of AudDataset data_len (utils.py line 409):
int((n_mel_frames - 16) / 80. * 25) + 2, with the float expression modeled
as an exact rational and int() as truncation toward zero. -/
def data_len (nMel : Nat) : Int := Int.tdiv (((nMel : Int) - 16) * 25) 80 + 2

/-- Embedding of the frame count of the streaming loops
(services/generator.py line 407 and 921):
num_frames = max(1, (n_mel_frames - context_size) // step_size + 1) with
context_size = 16 and step_size = 4; Python floor division. -/
def num_frames_stream (nMel : Nat) : Int := max 1 (Int.fdiv ((nMel : Int) - 16) 4 + 1)

/-- Length of the pre-emphasis output: scipy.signal.lfilter keeps the length
of its input (utils.py preemphasis). -/
def preemphasis_len (n : Nat) : Nat := n

/-- Number of STFT columns produced by _stft (utils.py line 219 and
mel_processor.py): librosa.stft with n_fft 800, hop 200, win 800 and the
library default center=True, which pads the signal by n_fft/2 = 400 on each
side, giving 1 + floor(len / 200) columns. Modeled from the documented
librosa behavior, since librosa is an external dependency. -/
def stft_cols (n : Nat) : Nat := 1 + n / 200

/-- Shape (bands, columns) of melspectrogram (utils.py lines 193-206): the
80-row mel filterbank applied to every STFT column of the pre-emphasized
waveform; dB conversion and normalization keep the shape. -/
def melspectrogram_shape (n : Nat) : Nat × Nat := (80, stft_cols (preemphasis_len n))

/-- One execution of the head-motion block (services/generator.py lines
779-784 and 1108-1113) on the state (img_idx, step_stride), with
len_img = number of template frames - 1:
  if img_idx > len_img - 1: step_stride = -1
  if img_idx < 1: step_stride = 1
  img_idx += step_stride -/
def cycle_step (lenImg : Int) (st : Int × Int) : Int × Int :=
  let s1 : Int := if st.1 > lenImg - 1 then -1 else st.2
  let s2 : Int := if st.1 < 1 then 1 else s1
  (st.1 + s2, s2)

/-- Template index used for the k-th generated frame (k counted from 0) of a
session over N template frames: the loop starts at (img_idx, step_stride) =
(0, 0) and runs the head-motion block once before every use, so frame k uses
the first component after k+1 steps. -/
def used_idx (N : Nat) (k : Nat) : Int :=
  ((cycle_step ((N : Int) - 1))^[k + 1] ((0 : Int), (0 : Int))).1

/-- Consumer-visible event of an async generator: a yielded frame or an
exception propagated out of the generator. -/
inductive StreamEvent (α ε : Type) where
  | frame (f : α)
  | raised (e : ε)
deriving DecidableEq

/-- Streaming phase of generate_frames / generate_frames_from_audio: the
while loop renders frames in order; the surrounding try/except
(services/generator.py lines 347-349 and 556-558) logs an exception and
re-raises it, so a failing render call ends the event list with a raised
event after the frames already yielded. -/
def stream_loop {α ε : Type} (render : Nat → Except ε α) : Nat → Nat → List (StreamEvent α ε)
  | _, 0 => []
  | idx, n + 1 =>
    match render idx with
    | .ok f => .frame f :: stream_loop render (idx + 1) n
    | .error e => [.raised e]

/-- Whole-session event list: the static placeholder frame is yielded before
the try block, then the streaming phase runs for numFrames frames. -/
def generate_frames_events {α ε : Type} (placeholder : α) (render : Nat → Except ε α)
    (numFrames : Nat) : List (StreamEvent α ε) :=
  .frame placeholder :: stream_loop render 0 numFrames

/-- Retry bookkeeping of the context-starved streaming loop
(services/generator.py lines 463-471): when the context for frame_idx is
unavailable the loop increments retry_count, breaks once
retry_count >= max_retries, and otherwise sleeps 50 ms and re-checks.
Returns none for break, some of the new count for sleep-and-continue. -/
def starved_step (maxRetries rc : Nat) : Option Nat :=
  if maxRetries ≤ rc + 1 then none else some (rc + 1)

/-- Run of the streaming loop in a session whose embedding context never
becomes available, counting (loop iterations, sleeps) until the break;
none when the fuel runs out before the loop breaks, so a some result
certifies termination. -/
def starved_iters (maxRetries : Nat) : Nat → Nat → Option (Nat × Nat)
  | _, 0 => none
  | rc, fuel + 1 =>
    match starved_step maxRetries rc with
    | none => some (1, 0)
    | some rc1 => (starved_iters maxRetries rc1 fuel).map (fun p => (p.1 + 1, p.2 + 1))

/-- Local names bound in the body of the base
FrameGenerationService.generate_frames_from_audio before its head-motion
block runs (services/generator.py lines 351-474): the parameters and every
name the method assigns up to that point. -/
def base_audio_locals : List String :=
  ["self", "audio_data", "audio_duration", "session_id", "waveform_np",
   "img_concat_T", "h", "w", "crop_img_r", "mel", "mel_tensor", "model",
   "device", "fps_target", "frame_time", "last_frame_time", "chunk_size",
   "step_size", "context_size", "num_frames", "frame_idx",
   "audio_features_cache", "chunk_end", "i", "mel_idx", "mel_window",
   "audio_feature", "first_frame", "max_retries", "retry_count",
   "next_chunk_start", "need_more_features", "chunk_start"]

/-- Names the head-motion block reads, in evaluation order of
`if img_idx > len_img - 1` (services/generator.py lines 477-481). -/
def head_motion_reads : List String := ["img_idx", "len_img", "step_stride"]

/-- Extra locals the enhanced override binds before its loop
(services/generator.py lines 734-736 and 1100-1102). -/
def enhanced_extra_locals : List String := ["step_stride", "img_idx", "len_img"]

/-- Instance attributes set by FrameGenerationService.__init__
(services/generator.py lines 29-44); _source_frames and _source_landmarks
are set only by EnhancedFrameGenerationService.__init__. -/
def base_attrs : List String := ["models", "tts", "_cached_preprocess"]

/-- First name of reads that is not bound in env; Python raises NameError on
it. -/
def first_unbound (env reads : List String) : Option String :=
  reads.find? (fun r => !(env.contains r))

/-- One renderable iteration of the generate_frames_from_audio loop body,
run in the local environment env: the head-motion block is evaluated first,
so an unbound name there raises before any frame work happens; otherwise the
iteration produces the frame for this index. -/
def py_render {α : Type} (env : List String) (frameOf : Nat → α) (idx : Nat) :
    Except String α :=
  match first_unbound env head_motion_reads with
  | some n => .error n
  | none => .ok (frameOf idx)

/-- Embedding of ImageProcessor.paste_generated_region
(frame_generation_pipeline/image_processor.py lines 210-252) over images as
total pixel functions: build a 328x328 canvas that is zero outside
[4:324, 4:324] and the generated region inside it, resize the canvas to the
original crop size (cv2.resize is an external collaborator, passed as an
abstract function), then write it into a copy of full_frame at
[ymin:ymax, xmin:xmax]. -/
def paste_generated_region {α : Type}
    (resize : (Nat → Nat → α) → Nat → Nat → (Nat → Nat → α))
    (zero : α) (fullFrame generated : Nat → Nat → α)
    (xmin ymin xmax ymax hh ww : Nat) : Nat → Nat → α :=
  let canvas : Nat → Nat → α := fun y x =>
    if 4 ≤ y ∧ y < 324 ∧ 4 ≤ x ∧ x < 324 then generated (y - 4) (x - 4) else zero
  let resized := resize canvas hh ww
  fun y x =>
    if ymin ≤ y ∧ y < ymax ∧ xmin ≤ x ∧ x < xmax then resized (y - ymin) (x - xmin)
    else fullFrame y x

/- Helper lemmas -/

/-- Python slicing with nonnegative bounds is drop-then-take. -/
lemma pySlice_nonneg {α : Type} (l : List α) (a b : Int) (ha : 0 ≤ a) (hb : 0 ≤ b) :
    pySlice l a b = (l.drop a.toNat).take (b.toNat - a.toNat) := by
  unfold pySlice
  simp only [if_neg (by omega : ¬ a < 0), if_neg (by omega : ¬ b < 0)]
  rcases le_total a (l.length : Int) with h | h
  · have e1 : (min a (l.length : Int)).toNat = a.toNat := by omega
    rw [e1]
    rcases le_total b (l.length : Int) with h2 | h2
    · have e2 : (min b (l.length : Int)).toNat = b.toNat := by omega
      rw [e2]
    · have e2 : (min b (l.length : Int)).toNat = l.length := by omega
      rw [e2]
      have hd : (l.drop a.toNat).length = l.length - a.toNat := List.length_drop _ _
      rw [List.take_of_length_le (by omega), List.take_of_length_le (by omega)]
  · have e1 : (min a (l.length : Int)).toNat = l.length := by omega
    rw [e1]
    have e2b : l.drop a.toNat = ([] : List α) := List.drop_eq_nil_of_le (by omega)
    simp [e2b]

/-- A Python head slice l[0:b] with nonnegative b is take. -/
lemma pySlice_take {α : Type} (l : List α) (b : Int) (hb : 0 ≤ b) :
    pySlice l 0 b = l.take b.toNat := by
  rw [pySlice_nonneg l 0 b le_rfl hb]
  simp

/-- Structure of get_audio_features on the well-behaved domain: for a feature
array of at least 8 rows and 0 <= idx <= length, the result is the slice
[idx-8, idx+8) of the array with zero rows filling the positions outside it,
16 rows in all. -/
lemma gaf_segments {α : Type} (z : α) (features : List α) (idx : Nat)
    (h8 : 8 ≤ features.length) (hle : idx ≤ features.length) :
    get_audio_features z features (idx : Int) =
      List.replicate (8 - idx) z ++
        (features.drop (idx - 8)).take (16 - (8 - idx) - (idx + 8 - features.length)) ++
        List.replicate (idx + 8 - features.length) z := by
  unfold get_audio_features
  simp only
  by_cases h1 : idx < 8
  · rw [if_pos (by omega : (idx : Int) - 8 < 0), if_pos (by omega : (idx : Int) - 8 < 0)]
    by_cases h2 : (features.length : Int) < (idx : Int) + 8
    · have hr : (if (idx : Int) + 8 > (features.length : Int) then (features.length : Int)
          else (idx : Int) + 8) = (features.length : Int) := if_pos (by omega)
      have hp : (if (idx : Int) + 8 > (features.length : Int)
          then (idx : Int) + 8 - (features.length : Int) else 0)
          = (idx : Int) + 8 - (features.length : Int) := if_pos (by omega)
      rw [hr, hp]
      rw [pySlice_take features _ (by omega)]
      have e0 : ((features.length : Int)).toNat = features.length := by omega
      rw [e0, List.take_length]
      rw [if_pos (by omega : (0 : Int) < -((idx : Int) - 8))]
      rw [if_pos (by omega : (0 : Int) < (idx : Int) + 8 - (features.length : Int))]
      rw [pySlice_take features _ (by omega)]
      have e1 : ((-((idx : Int) - 8))).toNat = 8 - idx := by omega
      rw [e1]
      rw [pySlice_take _ _ (by omega)]
      have e2 : ((idx : Int) + 8 - (features.length : Int)).toNat
          = idx + 8 - features.length := by omega
      rw [e2]
      rw [List.map_const', List.map_const']
      simp only [List.length_take, List.length_append, List.length_map, List.length_replicate]
      have c1 : min (8 - idx) features.length = 8 - idx := by omega
      rw [c1]
      have c2 : min (idx + 8 - features.length) (8 - idx + features.length)
          = idx + 8 - features.length := by omega
      rw [c2]
      have c3 : 16 - (8 - idx) - (idx + 8 - features.length) = features.length := by omega
      rw [c3]
      have c4 : idx - 8 = 0 := by omega
      rw [c4]
      simp
    · have hr : (if (idx : Int) + 8 > (features.length : Int) then (features.length : Int)
          else (idx : Int) + 8) = (idx : Int) + 8 := if_neg (by omega)
      have hp : (if (idx : Int) + 8 > (features.length : Int)
          then (idx : Int) + 8 - (features.length : Int) else 0) = 0 := if_neg (by omega)
      rw [hr, hp]
      rw [if_neg (by omega : ¬ (0 : Int) < (0 : Int))]
      rw [if_pos (by omega : (0 : Int) < -((idx : Int) - 8))]
      rw [pySlice_take features _ (by omega)]
      have e0 : (((idx : Int) + 8)).toNat = idx + 8 := by omega
      rw [e0]
      have e1 : ((-((idx : Int) - 8))).toNat = 8 - idx := by omega
      rw [pySlice_take _ _ (by omega), e1]
      rw [List.map_const']
      simp only [List.length_take]
      have c1 : min (8 - idx) (min (idx + 8) features.length) = 8 - idx := by omega
      rw [c1]
      have c2 : 16 - (8 - idx) - (idx + 8 - features.length) = idx + 8 := by omega
      rw [c2]
      have c3 : idx + 8 - features.length = 0 := by omega
      rw [c3]
      have c4 : idx - 8 = 0 := by omega
      rw [c4]
      simp
  · rw [if_neg (by omega : ¬ (idx : Int) - 8 < 0), if_neg (by omega : ¬ (idx : Int) - 8 < 0)]
    by_cases h2 : (features.length : Int) < (idx : Int) + 8
    · have hr : (if (idx : Int) + 8 > (features.length : Int) then (features.length : Int)
          else (idx : Int) + 8) = (features.length : Int) := if_pos (by omega)
      have hp : (if (idx : Int) + 8 > (features.length : Int)
          then (idx : Int) + 8 - (features.length : Int) else 0)
          = (idx : Int) + 8 - (features.length : Int) := if_pos (by omega)
      rw [hr, hp]
      rw [if_neg (by omega : ¬ (0 : Int) < (0 : Int))]
      rw [if_pos (by omega : (0 : Int) < (idx : Int) + 8 - (features.length : Int))]
      rw [pySlice_nonneg features _ _ (by omega) (by omega)]
      have e0 : ((features.length : Int)).toNat = features.length := by omega
      have e1 : (((idx : Int) - 8)).toNat = idx - 8 := by omega
      rw [e0, e1]
      rw [pySlice_take _ _ (by omega)]
      have e2 : ((idx : Int) + 8 - (features.length : Int)).toNat
          = idx + 8 - features.length := by omega
      rw [e2]
      rw [List.map_const']
      simp only [List.length_take, List.length_drop]
      have c1 : min (idx + 8 - features.length)
          (min (features.length - (idx - 8)) (features.length - (idx - 8)))
          = idx + 8 - features.length := by omega
      rw [c1]
      have c2 : 16 - (8 - idx) - (idx + 8 - features.length)
          = features.length - (idx - 8) := by omega
      rw [c2]
      have c3 : (8 - idx : Nat) = 0 := by omega
      rw [c3]
      simp
    · have hr : (if (idx : Int) + 8 > (features.length : Int) then (features.length : Int)
          else (idx : Int) + 8) = (idx : Int) + 8 := if_neg (by omega)
      have hp : (if (idx : Int) + 8 > (features.length : Int)
          then (idx : Int) + 8 - (features.length : Int) else 0) = 0 := if_neg (by omega)
      rw [hr, hp]
      rw [if_neg (by omega : ¬ (0 : Int) < (0 : Int))]
      rw [pySlice_nonneg features _ _ (by omega) (by omega)]
      have e0 : (((idx : Int) + 8)).toNat = idx + 8 := by omega
      have e1 : (((idx : Int) - 8)).toNat = idx - 8 := by omega
      rw [e0, e1]
      have c1 : idx + 8 - (idx - 8) = 16 := by omega
      rw [c1]
      have c2 : 16 - (8 - idx) - (idx + 8 - features.length) = 16 := by omega
      rw [c2]
      have c3 : (8 - idx : Nat) = 0 := by omega
      have c4 : idx + 8 - features.length = 0 := by omega
      rw [c3, c4]
      simp

/-- Run of the starved loop: from retry count rc below the budget, the loop
breaks after exactly maxRetries - rc iterations, all but the last preceded
by a sleep, whatever the available fuel beyond that. -/
lemma starved_iters_run (fuel mr rc : Nat) (h1 : rc < mr) (h2 : mr - rc ≤ fuel) :
    starved_iters mr rc fuel = some (mr - rc, mr - rc - 1) := by
  induction fuel generalizing rc with
  | zero => omega
  | succ n ih =>
    rw [starved_iters]
    by_cases hb : mr ≤ rc + 1
    · simp only [starved_step, if_pos hb]
      have h3 : mr - rc = 1 := by omega
      simp [h3]
    · simp only [starved_step, if_neg hb]
      rw [ih (rc + 1) (by omega) (by omega)]
      simp only [Option.map_some', Option.some.injEq, Prod.mk.injEq]
      omega

/-- A raised event produced by the streaming loop is always the last event,
and everything before it is a successfully rendered frame. -/
lemma stream_loop_raised_last {α ε : Type} (render : Nat → Except ε α) :
    ∀ (n idx : Nat) (l1 l2 : List (StreamEvent α ε)) (e : ε),
      stream_loop render idx n = l1 ++ StreamEvent.raised e :: l2 →
      l2 = [] ∧ ∀ ev ∈ l1, ∃ f, ev = StreamEvent.frame f := by
  intro n
  induction n with
  | zero =>
    intro idx l1 l2 e h
    rw [stream_loop] at h
    exact absurd h.symm (by simp)
  | succ n ih =>
    intro idx l1 l2 e h
    rw [stream_loop] at h
    cases hr : render idx with
    | ok f =>
      rw [hr] at h
      cases l1 with
      | nil => simp at h
      | cons a l1t =>
        simp only [List.cons_append, List.cons.injEq] at h
        obtain ⟨ha, ht⟩ := h
        obtain ⟨h2, h3⟩ := ih (idx + 1) l1t l2 e ht
        refine ⟨h2, ?_⟩
        intro ev hev
        rcases List.mem_cons.mp hev with hev | hev
        · exact ⟨f, by rw [hev, ← ha]⟩
        · exact h3 ev hev
    | error e2 =>
      rw [hr] at h
      cases l1 with
      | nil =>
        simp only [List.nil_append, List.cons.injEq] at h
        exact ⟨h.2.symm, by simp⟩
      | cons a l1t =>
        simp only [List.cons_append, List.cons.injEq] at h
        exact absurd h.2.symm (by simp)

/- Claim theorems -/

/-- C1 counterexample: with two distinct embeddings and the cache pre-seeded
with 8 copies of embedding[0] exactly as in generate_frames, the context
extracted for frame 1 is not the spec window of embeddings -7..8 around
frame 1: embedding[1] never appears in it. -/
theorem claim_C1_counterexample :
    get_audio_features (0 : Int) (List.replicate 8 1 ++ [1, 2]) 1 ≠
      spec_context (0 : Int) [1, 2] 1 := by decide

/-- C1 (amended): for frame k the conditioning window extracted from the
pre-seeded cache is the window of cache slots k-8..k+7, which holds
embeddings k-16 through k-1 - left-filled with the 8 pre-seeded copies of
embedding[0] and then with zero rows - not the window of embeddings k-8
through k+7 centred on k: the context lags the frame by 8 embeddings. -/
theorem claim_C1_preseeded_context_lag {α : Type} (z e0 : α) (embs : List α)
    (k : Nat) (hk : k ≤ embs.length) :
    get_audio_features z (List.replicate 8 e0 ++ embs) (k : Int) =
      List.replicate (8 - k) z ++ List.replicate (8 - (k - 8)) e0 ++
        (embs.drop (k - 16)).take (min k 16) := by
  have h := gaf_segments z (List.replicate 8 e0 ++ embs) k
    (by simp) (by simp; omega)
  rw [h]
  simp only [List.length_append, List.length_replicate]
  have c0 : k + 8 - (8 + embs.length) = 0 := by omega
  rw [c0]
  simp only [List.replicate_zero, List.append_nil, Nat.sub_zero]
  rw [List.append_assoc]
  congr 1
  rcases Nat.lt_or_ge k 8 with h1 | h1
  · have d0 : k - 8 = 0 := by omega
    have d1 : k - 16 = 0 := by omega
    rw [d0, d1, List.drop_zero, List.drop_zero]
    rw [List.take_append_eq_append_take]
    simp only [List.length_replicate]
    rw [List.take_replicate]
    have c1 : min (16 - (8 - k)) 8 = 8 := by omega
    have c2 : 16 - (8 - k) - 8 = k := by omega
    have c3 : min k 16 = k := by omega
    rw [c1, c2, c3]
  · have c3 : (8 - k : Nat) = 0 := by omega
    rw [c3, Nat.sub_zero]
    rw [List.drop_append_eq_append_drop]
    simp only [List.length_replicate]
    rw [List.drop_replicate]
    rw [List.take_append_eq_append_take]
    simp only [List.length_replicate]
    rw [List.take_replicate]
    have c4 : k - 8 - 8 = k - 16 := by omega
    have c5 : min 16 (8 - (k - 8)) = 8 - (k - 8) := by omega
    have c6 : 16 - (8 - (k - 8)) = min k 16 := by omega
    rw [c4, c5, c6]

/-- C1 witness: the lag theorem evaluated on the concrete two-embedding cache
of the counterexample. -/
theorem claim_C1_witness :
    get_audio_features (0 : Int) (List.replicate 8 5 ++ [5, 7]) 1 =
      List.replicate 7 0 ++ List.replicate 8 5 ++ [5] := by
  have h := claim_C1_preseeded_context_lag (0 : Int) 5 [5, 7] 1 (by decide)
  simpa using h

/-- C2 counterexample: for a 100-column spectrogram the streaming speech path
does not produce int((100-16)/80*25)+2 = 28 frames: its num_frames formula
gives 22. -/
theorem claim_C2_counterexample : num_frames_stream 100 ≠ data_len 100 := by decide

/-- C2 (amended): AudDataset computes data_len = int((n-16)/80*25)+2, which
is 28 for a 100-column spectrogram, but the streaming loops of the generator
service produce max(1, (n-16)//4+1) frames, which is 22 for the same
spectrogram. -/
theorem claim_C2_frame_counts : data_len 100 = 28 ∧ num_frames_stream 100 = 22 := by
  decide

/-- C3 counterexample: a streaming-phase error is re-raised by the except
block, so the consumer of the generator does receive an exception event. -/
theorem claim_C3_counterexample :
    StreamEvent.raised 0 ∈
      generate_frames_events (0 : Nat) (fun _ => (Except.error 0 : Except Nat Nat)) 1 := by
  decide

/-- C3 (amended): a streaming-phase error ends the sequence, but as a logged
and re-raised exception delivered to the consumer after the last
successfully yielded frame, not as a silent stop; every event before the
exception is a valid frame, and nothing follows it. -/
theorem claim_C3_error_ends_stream {α ε : Type} (p : α) (render : Nat → Except ε α)
    (n : Nat) (l1 l2 : List (StreamEvent α ε)) (e : ε)
    (h : generate_frames_events p render n = l1 ++ StreamEvent.raised e :: l2) :
    l2 = [] ∧ ∀ ev ∈ l1, ∃ f, ev = StreamEvent.frame f := by
  rw [generate_frames_events] at h
  cases l1 with
  | nil => exact absurd h (by simp)
  | cons a l1t =>
    simp only [List.cons_append, List.cons.injEq] at h
    obtain ⟨ha, ht⟩ := h
    obtain ⟨h2, h3⟩ := stream_loop_raised_last render n 0 l1t l2 e ht
    refine ⟨h2, ?_⟩
    intro ev hev
    rcases List.mem_cons.mp hev with hev | hev
    · exact ⟨p, by rw [hev, ← ha]⟩
    · exact h3 ev hev

/-- C3 witness: the amended theorem applied to a session that fails on its
first render call. -/
theorem claim_C3_witness :
    ([] : List (StreamEvent Nat Nat)) = [] ∧
      ∀ ev ∈ ([StreamEvent.frame 0] : List (StreamEvent Nat Nat)),
        ∃ f : Nat, ev = StreamEvent.frame f :=
  claim_C3_error_ends_stream 0 (fun _ => (Except.error 0 : Except Nat Nat)) 1
    [StreamEvent.frame 0] [] 0 (by decide)

/-- C4 counterexample: the cursor is advanced before the frame is fetched, so
for N = 4 the sequence of template indices actually used does not start
0,1,2,3,...: the first generated frame already uses index 1. -/
theorem claim_C4_counterexample :
    ¬ (∀ k, k < 10 → used_idx 4 k = ([0, 1, 2, 3, 2, 1, 0, 1, 2, 3] : List Int).getD k 0) := by
  decide

/-- C4 (amended): the stride does flip to -1 on reaching index N-1 and to +1
on reaching 0 and is kept in between, but img_idx is updated before each
use, so the indices used for successive frames start one step into the walk:
for N = 4 they are 1,2,3,2,1,0,1,2,3,2,... -/
theorem claim_C4_pingpong (N : Int) (hN : 2 ≤ N) :
    (∀ s : Int, cycle_step (N - 1) (N - 1, s) = (N - 2, -1)) ∧
    (∀ s : Int, cycle_step (N - 1) ((0 : Int), s) = (1, 1)) ∧
    (∀ idx s : Int, 1 ≤ idx → idx ≤ N - 2 → cycle_step (N - 1) (idx, s) = (idx + s, s)) ∧
    (∀ k, k < 10 → used_idx 4 k = ([1, 2, 3, 2, 1, 0, 1, 2, 3, 2] : List Int).getD k 0) := by
  refine ⟨?_, ?_, ?_, by decide⟩
  · intro s
    simp only [cycle_step]
    rw [if_pos (by omega : (N : Int) - 1 > N - 1 - 1),
      if_neg (by omega : ¬ (N : Int) - 1 < 1)]
    have e : (N : Int) - 1 + -1 = N - 2 := by omega
    rw [e]
  · intro s
    simp only [cycle_step]
    rw [if_neg (by omega : ¬ (0 : Int) > N - 1 - 1), if_pos (by omega : (0 : Int) < 1)]
    norm_num
  · intro idx s h1 h2
    simp only [cycle_step]
    rw [if_neg (by omega : ¬ idx > N - 1 - 1), if_neg (by omega : ¬ idx < 1)]

/-- C4 witness: the amended theorem evaluated at N = 4: the walk flips at
index 3 and the first frame uses index 1. -/
theorem claim_C4_witness :
    cycle_step 3 ((3 : Int), 1) = (2, -1) ∧ used_idx 4 0 = 1 := by
  have h := claim_C4_pingpong 4 (by norm_num)
  refine ⟨by simpa using h.1 1, ?_⟩
  have h4 := h.2.2.2 0 (by norm_num)
  simpa using h4

/-- C5 counterexample: for a waveform of exactly one window (800 samples) the
mel spectrogram does not have 1 + (800-800)/200 = 1 column: librosa frames
with center=True and produces 5 columns. -/
theorem claim_C5_counterexample :
    melspectrogram_shape 800 ≠ (80, 1 + (800 - 800) / 200) := by decide

/-- C5 (amended): for every waveform of at least one window the mel shape is
(80, 1 + floor(len/200)), i.e. exactly 4 columns more than the claimed
(80, 1 + floor((len-800)/200)), because the STFT is centered. -/
theorem claim_C5_mel_shape (n : Nat) (h : 800 ≤ n) :
    melspectrogram_shape n = (80, (1 + (n - 800) / 200) + 4) := by
  simp only [melspectrogram_shape, stft_cols, preemphasis_len, Prod.mk.injEq]
  exact ⟨trivial, by omega⟩

/-- C5 witness: the amended shape theorem at a 1000-sample waveform. -/
theorem claim_C5_witness :
    melspectrogram_shape 1000 = (80, (1 + (1000 - 800) / 200) + 4) :=
  claim_C5_mel_shape 1000 (by decide)

/-- C6: for a spectrogram of at least 16 mel frames, crop_audio_window
returns exactly 16 rows for every frame index: the slice starting at
int(80*frameIdx/fps), shifted back to end at the last row when it would
overrun, and never padded - the rows are a contiguous slice of the input. -/
theorem claim_C6_crop_16_rows {α : Type} (spec : List α) (frameIdx fps : Nat)
    (_hfps : 0 < fps) (hlen : 16 ≤ spec.length) :
    crop_audio_window spec frameIdx fps =
      (spec.drop (min (80 * frameIdx / fps) (spec.length - 16))).take 16 ∧
    (crop_audio_window spec frameIdx fps).length = 16 := by
  have hEq : crop_audio_window spec frameIdx fps =
      (spec.drop (min (80 * frameIdx / fps) (spec.length - 16))).take 16 := by
    unfold crop_audio_window
    simp only
    generalize 80 * frameIdx / fps = s
    by_cases h : ((s : Int) + 16 > (spec.length : Int))
    · rw [if_pos h]
      rw [pySlice_nonneg spec _ _ (by omega) (by omega)]
      have e1 : ((spec.length : Int) - 16).toNat = spec.length - 16 := by omega
      have e2 : ((spec.length : Int)).toNat = spec.length := by omega
      rw [e1, e2]
      have c1 : spec.length - (spec.length - 16) = 16 := by omega
      have c2 : min s (spec.length - 16) = spec.length - 16 := by omega
      rw [c1, c2]
    · rw [if_neg h]
      rw [pySlice_nonneg spec _ _ (by omega) (by omega)]
      have e2 : (((s : Nat) : Int) + 16).toNat = s + 16 := by omega
      have e1 : (((s : Nat) : Int)).toNat = s := by omega
      rw [e2, e1]
      have c1 : s + 16 - s = 16 := by omega
      have c2 : min s (spec.length - 16) = s := by omega
      rw [c1, c2]
  refine ⟨hEq, ?_⟩
  rw [hEq]
  simp only [List.length_take, List.length_drop]
  generalize 80 * frameIdx / fps = s
  omega

/-- C6 witness: the crop theorem on a 20-row spectrogram at frame 1,
fps 25: rows 3 through 18. -/
theorem claim_C6_witness :
    crop_audio_window (List.range 20) 1 25 = ((List.range 20).drop 3).take 16 ∧
      (crop_audio_window (List.range 20) 1 25).length = 16 := by
  have h := claim_C6_crop_16_rows (List.range 20) 1 25 (by decide) (by decide)
  simpa using h

/-- C7 counterexample: on a 4-row feature array the window for index 0 has
12 rows, not 16, because each zero padding block is clipped to the length of
the data actually present. -/
theorem claim_C7_counterexample :
    (get_audio_features (0 : Int) [1, 2, 3, 4] 0).length ≠ 16 := by decide

/-- C7 (amended): the window has exactly 16 rows, zero padded at both ends
wherever [idx-8, idx+8) leaves the array, provided the array has at least 8
rows and 0 <= idx <= length; shorter arrays (or indices outside that range)
get clipped padding and fewer or more than 16 rows. -/
theorem claim_C7_context_window {α : Type} (z : α) (features : List α) (idx : Nat)
    (h8 : 8 ≤ features.length) (hle : idx ≤ features.length) :
    get_audio_features z features (idx : Int) =
      List.replicate (8 - idx) z ++
        (features.drop (idx - 8)).take (16 - (8 - idx) - (idx + 8 - features.length)) ++
        List.replicate (idx + 8 - features.length) z ∧
    (get_audio_features z features (idx : Int)).length = 16 := by
  have h := gaf_segments z features idx h8 hle
  refine ⟨h, ?_⟩
  rw [h]
  simp only [List.length_append, List.length_replicate, List.length_take, List.length_drop]
  omega

/-- C7 witness: the window theorem on an 8-row array at index 0. -/
theorem claim_C7_witness :
    get_audio_features (0 : Int) [1, 2, 3, 4, 5, 6, 7, 8] 0 =
      List.replicate 8 0 ++ [1, 2, 3, 4, 5, 6, 7, 8] ∧
    (get_audio_features (0 : Int) [1, 2, 3, 4, 5, 6, 7, 8] 0).length = 16 := by
  have h := claim_C7_context_window (0 : Int) [1, 2, 3, 4, 5, 6, 7, 8] 0
    (by decide) (by decide)
  simpa using h

/-- C8: in a session whose embedding context never becomes available, the
streaming loop performs exactly 10 unavailability iterations - the first 9
each followed by a 50 ms sleep - and then breaks, however much fuel it is
given: the session terminates and never waits unboundedly. -/
theorem claim_C8_retry_budget (fuel : Nat) (h : 10 ≤ fuel) :
    starved_iters 10 0 fuel = some (10, 9) := by
  have h2 := starved_iters_run fuel 10 0 (by omega) (by omega)
  simpa using h2

/-- C8 witness: the retry bound evaluated with fuel 12. -/
theorem claim_C8_witness : starved_iters 10 0 12 = some (10, 9) :=
  claim_C8_retry_budget 12 (by decide)

/-- C9: paste_generated_region writes only the crop rectangle: every pixel
outside [ymin:ymax, xmin:xmax] of the output equals the corresponding pixel
of the input full frame, whatever the resize collaborator returns. -/
theorem claim_C9_outside_pixels {α : Type}
    (resize : (Nat → Nat → α) → Nat → Nat → (Nat → Nat → α)) (zero : α)
    (fullFrame generated : Nat → Nat → α) (xmin ymin xmax ymax hh ww y x : Nat)
    (hout : ¬ (ymin ≤ y ∧ y < ymax ∧ xmin ≤ x ∧ x < xmax)) :
    paste_generated_region resize zero fullFrame generated xmin ymin xmax ymax hh ww y x =
      fullFrame y x := by
  simp only [paste_generated_region]
  rw [if_neg hout]

/-- C9 witness: a pixel right of the crop rectangle is unchanged. -/
theorem claim_C9_witness :
    paste_generated_region (fun c _ _ => c) (0 : Nat) (fun y x => 100 * y + x)
      (fun _ _ => 7) 1 1 2 2 5 5 0 3 = 3 := by
  have h := claim_C9_outside_pixels (fun c _ _ => c) (0 : Nat) (fun y x => 100 * y + x)
    (fun _ _ => 7) 1 1 2 2 5 5 0 3 (by decide)
  simpa using h

/-- C10: the names the head-motion block reads are never bound in the base
generate_frames_from_audio (they are bound only by the enhanced override),
nor are the source-frame attributes set by the base constructor, so every
session with at least one renderable frame yields the placeholder and then
raises NameError for img_idx before emitting any animated frame. -/
theorem claim_C10_base_name_error (p : Nat) (frameOf : Nat → Nat) (n : Nat) (hn : 1 ≤ n) :
    ("img_idx" ∉ base_audio_locals ∧ "len_img" ∉ base_audio_locals ∧
      "step_stride" ∉ base_audio_locals ∧ "_source_frames" ∉ base_attrs ∧
      "_source_landmarks" ∉ base_attrs) ∧
    ("img_idx" ∈ enhanced_extra_locals ∧ "len_img" ∈ enhanced_extra_locals ∧
      "step_stride" ∈ enhanced_extra_locals) ∧
    generate_frames_events p (py_render base_audio_locals frameOf) n =
      [StreamEvent.frame p, StreamEvent.raised "img_idx"] := by
  refine ⟨by decide, by decide, ?_⟩
  obtain ⟨m, rfl⟩ : ∃ m, n = m + 1 := ⟨n - 1, by omega⟩
  have h0 : py_render (α := Nat) base_audio_locals frameOf 0 = Except.error "img_idx" := by
    unfold py_render
    have hfu : first_unbound base_audio_locals head_motion_reads = some "img_idx" := by
      decide
    rw [hfu]
  rw [generate_frames_events, stream_loop, h0]

/-- C10 witness: a 3-frame session of the base class produces only the
placeholder and the NameError. -/
theorem claim_C10_witness :
    generate_frames_events (0 : Nat) (py_render base_audio_locals (fun i => i)) 3 =
      [StreamEvent.frame 0, StreamEvent.raised "img_idx"] :=
  (claim_C10_base_name_error 0 (fun i => i) 3 (by decide)).2.2

end DigitalClone
